import Mathlib

/-!
Shallow embedding of `sgp30.py`, a MicroPython driver for the Sensirion
SGP30 air-quality sensor, together with proofs about its checksum engine,
frame encoding/decoding, error handling and high-level operations.

Modelling conventions:
* Bytes and 16-bit words are `ℕ` with explicit masking (`&&& 0xFF`,
  `&&& 0xFFFF`), mirroring the Python source.
* The I2C bus collaborator is a function `List ℕ → Except SGPError Unit`
  for writes (the argument is the frame handed to `i2c.writeto`), and an
  `Except SGPError (List ℕ)` value for the outcome of `i2c.readfrom`.
* Python exceptions become `Except SGPError`: `OSError` raised by the bus
  is `.transport`; the driver's own `OSError`s are `.framing` and
  `.crcMismatch`; `ValueError` is `.invalidArg`.
* Python floats entering `set_absolute_humidity` are modelled as exact
  rationals; `int()` is truncation toward zero (`Int.tdiv`).
-/

namespace SGP30

/-- Error kinds corresponding to the exceptions of the Python driver. -/
inductive SGPError where
  | transport : SGPError
  | framing (expected got : ℕ) : SGPError
  | crcMismatch : SGPError
  | invalidArg : SGPError
deriving DecidableEq

/-- Command constants from the source (`_CMD_* = (msb, lsb)`). -/
def _CMD_INIT_AIR_QUALITY : ℕ × ℕ := (0x20, 0x03)

def _CMD_MEASURE_IAQ : ℕ × ℕ := (0x20, 0x08)

def _CMD_GET_IAQ_BASELINE : ℕ × ℕ := (0x20, 0x15)

def _CMD_SET_IAQ_BASELINE : ℕ × ℕ := (0x20, 0x1E)

def _CMD_MEASURE_RAW : ℕ × ℕ := (0x20, 0x50)

def _CMD_MEASURE_TEST : ℕ × ℕ := (0x20, 0x32)

def _CMD_SET_ABSOLUTE_HUMIDITY : ℕ × ℕ := (0x20, 0x61)

def _CMD_GET_SERIAL_ID : ℕ × ℕ := (0x36, 0x82)

def _CMD_SOFT_RESET : ℕ × ℕ := (0x00, 0x06)

/-- One iteration of the inner `for _ in range(8)` loop of `_crc8`. -/
def crc8_round (crc : ℕ) : ℕ :=
  if crc &&& 0x80 ≠ 0 then ((crc <<< 1) &&& 0xFF) ^^^ 0x31
  else (crc <<< 1) &&& 0xFF

/-- `n` iterations of the inner loop of `_crc8`. -/
def crc8_rounds : ℕ → ℕ → ℕ
  | 0, crc => crc
  | n + 1, crc => crc8_rounds n (crc8_round crc)

/-- `SGP30._crc8`: Sensirion CRC8 over a byte sequence. -/
def _crc8 (data : List ℕ) : ℕ :=
  data.foldl (fun crc byte => crc8_rounds 8 (crc ^^^ byte)) 0xFF

/-- One round of the checksum as the spec words it: test the top bit
(bit 7), shift left and XOR with 0x31 masking to 8 bits, else just shift
left masking to 8 bits. -/
def crc8_spec_round (crc : ℕ) : ℕ :=
  if crc.testBit 7 then ((crc <<< 1) ^^^ 0x31) % 256
  else (crc <<< 1) % 256

/-- `n` spec-worded rounds. -/
def crc8_spec_rounds : ℕ → ℕ → ℕ
  | 0, crc => crc
  | n + 1, crc => crc8_spec_rounds n (crc8_spec_round crc)

/-- The checksum algorithm as described by the spec: accumulator starts at
0xFF, each byte is XORed in and followed by 8 rounds. -/
def crc8_spec (b : List ℕ) : ℕ :=
  b.foldl (fun crc byte => crc8_spec_rounds 8 (crc ^^^ byte)) 0xFF

/-- The 3-byte group `MSB, LSB, CRC` the write path emits for one 16-bit
argument value (loop body of `_write_command`). -/
def encodeWord (value : ℕ) : List ℕ :=
  [(value >>> 8) &&& 0xFF, value &&& 0xFF,
   _crc8 [(value >>> 8) &&& 0xFF, value &&& 0xFF]]

/-- The frame `_write_command` builds: the 2 command bytes followed by one
3-byte group per argument. -/
def _write_command_buf (cmd : ℕ × ℕ) (arguments : List ℕ) : List ℕ :=
  arguments.foldl (fun buf value => buf ++ encodeWord value) [cmd.1, cmd.2]

/-- `SGP30._write_command`: build the frame and hand it to `i2c.writeto`. -/
def _write_command (bus : List ℕ → Except SGPError Unit) (cmd : ℕ × ℕ)
    (arguments : List ℕ) : Except SGPError Unit :=
  bus (_write_command_buf cmd arguments)

/-- The per-group loop of `_read_words_with_crc`: check each 3-byte group's
checksum and reassemble the word `(a <<< 8) ||| b`.  The catch-all branch is
unreachable when the length is a multiple of 3 (the caller checks this). -/
def readWordsLoop : List ℕ → Except SGPError (List ℕ)
  | [] => .ok []
  | a :: b :: crc :: rest =>
    if _crc8 [a, b] ≠ crc then .error .crcMismatch
    else
      match readWordsLoop rest with
      | .ok words => .ok (((a <<< 8) ||| b) :: words)
      | .error e => .error e
  | _ => .error .crcMismatch

/-- `SGP30._read_words_with_crc`: `readRes` is the outcome of the bus read
(`_read_bytes`); on success the returned buffer must be exactly
`n_words * 3` bytes, then each group is checksum-verified. -/
def _read_words_with_crc (readRes : Except SGPError (List ℕ))
    (n_words : ℕ) : Except SGPError (List ℕ) :=
  match readRes with
  | .error e => .error e
  | .ok raw =>
    if raw.length ≠ n_words * 3 then .error (.framing (n_words * 3) raw.length)
    else readWordsLoop raw

/-- `SGP30Reading` (eCO2 ppm, TVOC ppb). -/
structure SGP30Reading where
  equivalent_co2 : ℕ
  total_voc : ℕ
deriving DecidableEq

/-- `SGP30.init_air_quality`. -/
def init_air_quality (bus : List ℕ → Except SGPError Unit) :
    Except SGPError Unit :=
  _write_command bus _CMD_INIT_AIR_QUALITY []

/-- `SGP30.measure_iaq`. -/
def measure_iaq (bus : List ℕ → Except SGPError Unit)
    (readRes : Except SGPError (List ℕ)) : Except SGPError SGP30Reading := do
  _write_command bus _CMD_MEASURE_IAQ []
  let words ← _read_words_with_crc readRes 2
  pure ⟨words.getD 0 0, words.getD 1 0⟩

/-- `SGP30.measure_raw`. -/
def measure_raw (bus : List ℕ → Except SGPError Unit)
    (readRes : Except SGPError (List ℕ)) : Except SGPError (ℕ × ℕ) := do
  _write_command bus _CMD_MEASURE_RAW []
  let words ← _read_words_with_crc readRes 2
  pure (words.getD 0 0, words.getD 1 0)

/-- `SGP30.measure_test`: pass iff the single response word is 0xD400. -/
def measure_test (bus : List ℕ → Except SGPError Unit)
    (readRes : Except SGPError (List ℕ)) : Except SGPError Bool := do
  _write_command bus _CMD_MEASURE_TEST []
  let words ← _read_words_with_crc readRes 1
  pure (words.getD 0 0 == 0xD400)

/-- `SGP30.get_baseline`: the wire order is TVOC baseline then eCO2
baseline; the driver returns `(eCO2, TVOC)`. -/
def get_baseline (bus : List ℕ → Except SGPError Unit)
    (readRes : Except SGPError (List ℕ)) : Except SGPError (ℕ × ℕ) := do
  _write_command bus _CMD_GET_IAQ_BASELINE []
  let words ← _read_words_with_crc readRes 2
  let tvoc_baseline := words.getD 0 0
  let eco2_baseline := words.getD 1 0
  pure (eco2_baseline, tvoc_baseline)

/-- `SGP30.set_baseline`: rejects `(0, 0)`, then writes the payload in the
order TVOC, eCO2, each masked to 16 bits. -/
def set_baseline (bus : List ℕ → Except SGPError Unit) (eCO2 TVOC : ℕ) :
    Except SGPError Unit :=
  if eCO2 = 0 ∧ TVOC = 0 then .error .invalidArg
  else _write_command bus _CMD_SET_IAQ_BASELINE [TVOC &&& 0xFFFF, eCO2 &&& 0xFFFF]

/-- Python `int()` on a rational: truncation toward zero. -/
def int_trunc (q : ℚ) : ℤ := q.num.tdiv (q.den : ℤ)

/-- `SGP30.set_absolute_humidity`: reject non-positive inputs, encode as
8.8 fixed point `int(g * 256) & 0xFFFF`, clamp a zero encoding to 1.
(`int_trunc` is nonnegative here since the guard ensures `g > 0`, so
`Int.toNat` is exact.) -/
def set_absolute_humidity (bus : List ℕ → Except SGPError Unit)
    (grams_per_m3 : ℚ) : Except SGPError Unit :=
  if grams_per_m3 ≤ 0 then .error .invalidArg
  else
    let val := (int_trunc (grams_per_m3 * 256)).toNat &&& 0xFFFF
    let val := if val = 0 then 1 else val
    _write_command bus _CMD_SET_ABSOLUTE_HUMIDITY [val]

/-- `SGP30.get_serial_id`: combine three words into a 48-bit integer. -/
def get_serial_id (bus : List ℕ → Except SGPError Unit)
    (readRes : Except SGPError (List ℕ)) : Except SGPError ℕ := do
  _write_command bus _CMD_GET_SERIAL_ID []
  let words ← _read_words_with_crc readRes 3
  pure ((words.getD 0 0 <<< 32) ||| (words.getD 1 0 <<< 16) ||| words.getD 2 0)

/-- `SGP30.soft_reset`: `try: write; except Exception: pass`. -/
def soft_reset (bus : List ℕ → Except SGPError Unit) : Except SGPError Unit :=
  match _write_command bus _CMD_SOFT_RESET [] with
  | .ok _ => .ok ()
  | .error _ => .ok ()

/-- A bus whose writes always succeed. -/
def okBus : List ℕ → Except SGPError Unit := fun _ => .ok ()

/-- A bus whose writes always fail with a transport error. -/
def failBus : List ℕ → Except SGPError Unit := fun _ => .error .transport

/-- Mismatch of the `i`-th 3-byte group of a response buffer: the checksum
recomputed over the first two bytes differs from the third byte. -/
def groupMismatch (raw : List ℕ) (i : ℕ) : Prop :=
  _crc8 [raw.getD (i * 3) 0, raw.getD (i * 3 + 1) 0] ≠ raw.getD (i * 3 + 2) 0

/-! ### Helper lemmas -/

lemma and_255 (x : ℕ) : x &&& 0xFF = x % 256 := by
  have h := Nat.and_pow_two_sub_one_eq_mod x 8
  norm_num at h
  exact h

lemma and_65535 (x : ℕ) : x &&& 0xFFFF = x % 65536 := by
  have h := Nat.and_pow_two_sub_one_eq_mod x 16
  norm_num at h
  exact h

lemma crc8_round_le (c : ℕ) : crc8_round c ≤ 255 := by
  unfold crc8_round
  split
  · have h1 : (c <<< 1) &&& 0xFF < 2 ^ 8 := by
      have := Nat.and_le_right (n := c <<< 1) (m := 0xFF)
      omega
    have h2 : (0x31 : ℕ) < 2 ^ 8 := by norm_num
    have := Nat.xor_lt_two_pow h1 h2
    omega
  · have := Nat.and_le_right (n := c <<< 1) (m := 0xFF)
    omega

lemma crc8_rounds_le (n c : ℕ) (hc : c ≤ 255) : crc8_rounds n c ≤ 255 := by
  induction n generalizing c with
  | zero => exact hc
  | succ n ih => exact ih (crc8_round c) (crc8_round_le c)

lemma crc8_rounds_succ_le (n c : ℕ) : crc8_rounds (n + 1) c ≤ 255 :=
  crc8_rounds_le n (crc8_round c) (crc8_round_le c)

lemma _crc8_le (data : List ℕ) : _crc8 data ≤ 255 := by
  unfold _crc8
  have key : ∀ (l : List ℕ) (acc : ℕ), acc ≤ 255 →
      l.foldl (fun crc byte => crc8_rounds 8 (crc ^^^ byte)) acc ≤ 255 := by
    intro l
    induction l with
    | nil => intro acc hacc; exact hacc
    | cons b rest ih =>
      intro acc _
      exact ih (crc8_rounds 8 (acc ^^^ b)) (crc8_rounds_succ_le 7 _)
  exact key data 0xFF (by norm_num)

lemma crc8_round_eq_spec (c : ℕ) : crc8_round c = crc8_spec_round c := by
  unfold crc8_round crc8_spec_round
  have hbit : c &&& 0x80 = (c.testBit 7).toNat * 2 ^ 7 := by
    have := Nat.and_two_pow c 7
    norm_num at this ⊢
    exact this
  cases h : c.testBit 7 with
  | false =>
    rw [h] at hbit
    simp only [Bool.toNat_false, zero_mul] at hbit
    rw [if_neg (by omega), if_neg (by simp)]
    exact and_255 _
  | true =>
    rw [h] at hbit
    simp only [Bool.toNat_true, one_mul] at hbit
    rw [if_pos (by omega), if_pos rfl]
    have hd : ((c <<< 1) ^^^ 0x31) &&& 0xFF
        = ((c <<< 1) &&& 0xFF) ^^^ (0x31 &&& 0xFF) :=
      Nat.and_xor_distrib_right
    have h31 : (0x31 : ℕ) &&& 0xFF = 0x31 := by decide
    rw [← and_255, hd, h31]

lemma crc8_rounds_eq_spec (n c : ℕ) : crc8_rounds n c = crc8_spec_rounds n c := by
  induction n generalizing c with
  | zero => rfl
  | succ n ih =>
    show crc8_rounds n (crc8_round c) = crc8_spec_rounds n (crc8_spec_round c)
    rw [crc8_round_eq_spec, ih]

lemma _crc8_eq_spec (b : List ℕ) : _crc8 b = crc8_spec b := by
  unfold _crc8 crc8_spec
  have key : ∀ (l : List ℕ) (acc : ℕ),
      l.foldl (fun crc byte => crc8_rounds 8 (crc ^^^ byte)) acc
        = l.foldl (fun crc byte => crc8_spec_rounds 8 (crc ^^^ byte)) acc := by
    intro l
    induction l with
    | nil => intro acc; rfl
    | cons x rest ih =>
      intro acc
      simp only [List.foldl_cons]
      rw [crc8_rounds_eq_spec, ih]
  exact key b 0xFF

lemma word_reassemble {w : ℕ} (hw : w ≤ 0xFFFF) :
    ((((w >>> 8) &&& 0xFF) <<< 8) ||| (w &&& 0xFF)) = w := by
  have h1 : w >>> 8 = w / 256 := by
    rw [Nat.shiftRight_eq_div_pow]
  have h2 : (w / 256) &&& 0xFF = w / 256 := by
    rw [and_255]; omega
  rw [h1, h2, and_255, Nat.shiftLeft_eq]
  have h3 : w % 256 < 2 ^ 8 := by omega
  have h4 := Nat.mul_add_lt_is_or (b := w % 256) (i := 8) h3 (w / 256)
  have h5 : (2 : ℕ) ^ 8 = 256 := by norm_num
  rw [h5] at h4
  calc (w / 256) * 256 ||| w % 256
      = 256 * (w / 256) ||| w % 256 := by rw [mul_comm]
    _ = 256 * (w / 256) + w % 256 := h4.symm
    _ = w := by omega

lemma readWordsLoop_encode_cons (w : ℕ) (rest : List ℕ) (hw : w ≤ 0xFFFF) :
    readWordsLoop (encodeWord w ++ rest)
      = match readWordsLoop rest with
        | .ok words => .ok (w :: words)
        | .error e => .error e := by
  show readWordsLoop (((w >>> 8) &&& 0xFF) :: (w &&& 0xFF) :: _ :: rest) = _
  rw [readWordsLoop]
  rw [if_neg (by simp)]
  rw [word_reassemble hw]

lemma encodeWord_length (w : ℕ) : (encodeWord w).length = 3 := rfl

lemma read_words_ok (raw : List ℕ) (n : ℕ) :
    _read_words_with_crc (.ok raw) n
      = if raw.length ≠ n * 3 then .error (.framing (n * 3) raw.length)
        else readWordsLoop raw := rfl

lemma read_words_err (e : SGPError) (n : ℕ) :
    _read_words_with_crc (.error e) n = .error e := rfl

lemma loop_error_of_mismatch (n : ℕ) (raw : List ℕ) (hlen : raw.length = n * 3)
    (hmis : ∃ i < n, groupMismatch raw i) :
    readWordsLoop raw = .error .crcMismatch := by
  induction n generalizing raw with
  | zero =>
    obtain ⟨i, hi, _⟩ := hmis
    omega
  | succ n ih =>
    rcases raw with _ | ⟨a, _ | ⟨b, _ | ⟨c, rest⟩⟩⟩
    · simp at hlen
    · simp at hlen; omega
    · simp at hlen; omega
    · rw [readWordsLoop]
      by_cases hc : _crc8 [a, b] ≠ c
      · rw [if_pos hc]
      · rw [if_neg hc]
        obtain ⟨i, hi, hm⟩ := hmis
        match i, hi with
        | 0, _ =>
          exact absurd (by simpa [groupMismatch] using hm) hc
        | j + 1, hi =>
          have hm' : groupMismatch rest j := by
            unfold groupMismatch at hm ⊢
            have ga : (a :: b :: c :: rest).getD ((j + 1) * 3) 0
                = rest.getD (j * 3) 0 := by
              have e : (j + 1) * 3 = j * 3 + 1 + 1 + 1 := by ring
              rw [e, List.getD_cons_succ, List.getD_cons_succ,
                List.getD_cons_succ]
            have gb : (a :: b :: c :: rest).getD ((j + 1) * 3 + 1) 0
                = rest.getD (j * 3 + 1) 0 := by
              have e : (j + 1) * 3 + 1 = j * 3 + 1 + 1 + 1 + 1 := by ring
              rw [e, List.getD_cons_succ, List.getD_cons_succ,
                List.getD_cons_succ]
            have gc : (a :: b :: c :: rest).getD ((j + 1) * 3 + 2) 0
                = rest.getD (j * 3 + 2) 0 := by
              have e : (j + 1) * 3 + 2 = j * 3 + 2 + 1 + 1 + 1 := by ring
              rw [e, List.getD_cons_succ, List.getD_cons_succ,
                List.getD_cons_succ]
            rw [ga, gb, gc] at hm
            exact hm
          have hrest : rest.length = n * 3 := by
            simp only [List.length_cons] at hlen
            omega
          rw [ih rest hrest ⟨j, by omega, hm'⟩]

lemma read_words_encode_single (w : ℕ) (hw : w ≤ 0xFFFF) :
    _read_words_with_crc (.ok (encodeWord w)) 1 = .ok [w] := by
  rw [read_words_ok]
  rw [if_neg (by simp [encodeWord_length])]
  have h := readWordsLoop_encode_cons w [] hw
  rw [List.append_nil] at h
  rw [h]
  rfl

lemma read_words_encode_pair (w0 w1 : ℕ) (h0 : w0 ≤ 0xFFFF)
    (h1 : w1 ≤ 0xFFFF) :
    _read_words_with_crc (.ok (encodeWord w0 ++ encodeWord w1)) 2
      = .ok [w0, w1] := by
  rw [read_words_ok]
  rw [if_neg (by simp [encodeWord_length])]
  rw [readWordsLoop_encode_cons w0 _ h0]
  have h := readWordsLoop_encode_cons w1 [] h1
  rw [List.append_nil] at h
  rw [h]
  rfl

lemma get_baseline_okBus (readRes : Except SGPError (List ℕ)) (ws : List ℕ)
    (h : _read_words_with_crc readRes 2 = .ok ws) :
    get_baseline okBus readRes = .ok (ws.getD 1 0, ws.getD 0 0) := by
  unfold get_baseline
  rw [h]
  rfl

lemma measure_test_okBus (readRes : Except SGPError (List ℕ)) (ws : List ℕ)
    (h : _read_words_with_crc readRes 1 = .ok ws) :
    measure_test okBus readRes = .ok (ws.getD 0 0 == 0xD400) := by
  unfold measure_test
  rw [h]
  rfl

lemma int_trunc_eq_floor (q : ℚ) (hq : 0 ≤ q) : int_trunc q = ⌊q⌋ := by
  unfold int_trunc
  rw [Rat.floor_def]
  exact Int.tdiv_eq_ediv (by exact_mod_cast Rat.num_nonneg.mpr hq)
    (by positivity)

/-! ### Claim theorems -/

/-- Claim C1: for every byte sequence `b`, `_crc8 b` is a single byte in
[0,255]; it agrees with the spec's description of the algorithm
(accumulator initialised to 0xFF, MSB-first, polynomial 0x31, no final
XOR); `_crc8 []` is 0xFF and `_crc8 [0xBE, 0xEF]` is 0x92. -/
theorem crc8_correct :
    (∀ b : List ℕ, _crc8 b ≤ 255) ∧
    (∀ b : List ℕ, _crc8 b = crc8_spec b) ∧
    _crc8 [] = 0xFF ∧ _crc8 [0xBE, 0xEF] = 0x92 :=
  ⟨_crc8_le, _crc8_eq_spec, rfl, by decide⟩

/-- Claim C2: encoding a 16-bit word `w` as the write path's 3-byte group
(MSB, LSB, CRC) and decoding that group with the read path recovers
exactly `w`. -/
theorem encode_decode_roundtrip (w : ℕ) (hw : w ≤ 0xFFFF) :
    _read_words_with_crc (.ok (encodeWord w)) 1 = .ok [w] :=
  read_words_encode_single w hw

/-- Witness for C2 at `w = 0xBEEF`. -/
theorem encode_decode_roundtrip_witness :
    (0xBEEF : ℕ) ≤ 0xFFFF ∧
    _read_words_with_crc (.ok (encodeWord 0xBEEF)) 1 = .ok [0xBEEF] :=
  ⟨by decide, encode_decode_roundtrip 0xBEEF (by decide)⟩

/-- Claim C3: on a buffer of the correct length, the read path checks each
3-byte group's checksum; any mismatching group makes the whole call fail
with the checksum error, and a successful call implies every group
matched (no partially-validated prefix is ever returned). -/
theorem read_words_crc_check (n : ℕ) (raw : List ℕ)
    (hlen : raw.length = n * 3) :
    ((∃ i < n, groupMismatch raw i) →
        _read_words_with_crc (.ok raw) n = .error .crcMismatch) ∧
    (∀ ws, _read_words_with_crc (.ok raw) n = .ok ws →
        ∀ i < n, ¬ groupMismatch raw i) := by
  have herr : (∃ i < n, groupMismatch raw i) →
      _read_words_with_crc (.ok raw) n = .error .crcMismatch := by
    intro hmis
    rw [read_words_ok]
    rw [if_neg (by simp [hlen])]
    exact loop_error_of_mismatch n raw hlen hmis
  refine ⟨herr, fun ws hok i hi hm => ?_⟩
  rw [herr ⟨i, hi, hm⟩] at hok
  exact Except.noConfusion hok

/-- Witness for C3: a single group whose third byte is not the checksum of
the first two is rejected. -/
theorem read_words_crc_check_witness :
    groupMismatch [0xBE, 0xEF, 0] 0 ∧
    _read_words_with_crc (.ok [0xBE, 0xEF, 0]) 1 = .error .crcMismatch :=
  ⟨by unfold groupMismatch; decide,
   (read_words_crc_check 1 [0xBE, 0xEF, 0] (by decide)).1
     ⟨0, by decide, by unfold groupMismatch; decide⟩⟩

/-- Claim C4: when the bus read returns a buffer whose length differs from
`n * 3` the read path fails with the framing-length error (and hence
decodes nothing); it can succeed only when the length is exactly
`n * 3`. -/
theorem read_words_length_check (n : ℕ) (raw : List ℕ) :
    (raw.length ≠ n * 3 →
        _read_words_with_crc (.ok raw) n
          = .error (.framing (n * 3) raw.length)) ∧
    (∀ ws, _read_words_with_crc (.ok raw) n = .ok ws →
        raw.length = n * 3) := by
  constructor
  · intro h
    rw [read_words_ok]
    rw [if_pos h]
  · intro ws hok
    by_contra h
    rw [read_words_ok] at hok
    rw [if_pos h] at hok
    exact Except.noConfusion hok

/-- Witness for C4: a 5-byte response to a 2-word (6-byte) request fails
with the framing-length error. -/
theorem read_words_length_check_witness :
    ([1, 2, 3, 4, 5] : List ℕ).length ≠ 2 * 3 ∧
    _read_words_with_crc (.ok [1, 2, 3, 4, 5]) 2 = .error (.framing 6 5) :=
  ⟨by decide, (read_words_length_check 2 [1, 2, 3, 4, 5]).1 (by decide)⟩

/-- Claim C5: the baseline wire order is the reverse of the logical
`(eCO2, TVOC)` order in both directions: `set_baseline` puts the TVOC
group before the eCO2 group in the written frame, and `get_baseline`
returns the second wire word as eCO2 and the first as TVOC. -/
theorem baseline_wire_order :
    (∀ (bus : List ℕ → Except SGPError Unit) (eCO2 TVOC : ℕ),
        ¬(eCO2 = 0 ∧ TVOC = 0) →
        set_baseline bus eCO2 TVOC
          = bus ([0x20, 0x1E] ++ encodeWord (TVOC &&& 0xFFFF)
              ++ encodeWord (eCO2 &&& 0xFFFF))) ∧
    (∀ w0 w1 : ℕ, w0 ≤ 0xFFFF → w1 ≤ 0xFFFF →
        get_baseline okBus (.ok (encodeWord w0 ++ encodeWord w1))
          = .ok (w1, w0)) := by
  constructor
  · intro bus eCO2 TVOC h
    unfold set_baseline
    rw [if_neg h]
    rfl
  · intro w0 w1 h0 h1
    rw [get_baseline_okBus _ [w0, w1] (read_words_encode_pair w0 w1 h0 h1)]
    rfl

/-- Witness for C5 at the spec's example values: setting
`(eCO2, TVOC) = (100, 200)` puts the group encoding 200 before the group
encoding 100, and a response wire-encoding `(200, 100)` yields
`(eCO2, TVOC) = (100, 200)`. -/
theorem baseline_wire_order_witness :
    set_baseline okBus 100 200
        = okBus ([0x20, 0x1E] ++ encodeWord 200 ++ encodeWord 100) ∧
    get_baseline okBus (.ok (encodeWord 200 ++ encodeWord 100))
        = .ok (100, 200) :=
  ⟨baseline_wire_order.1 okBus 100 200 (by simp),
   baseline_wire_order.2 200 100 (by decide) (by decide)⟩

/-- Counterexample to C6 as stated: for the input `11/1024` g/m³ (exactly
representable in binary floating point) the code sends the fixed-point
word 2 — the write to a bus expecting precisely that frame is observed —
whereas `round(value * 256) = round(2.75) = 3`. -/
theorem humidity_round_counterexample :
    set_absolute_humidity
        (fun frame =>
          if frame = _write_command_buf _CMD_SET_ABSOLUTE_HUMIDITY [2]
          then .error .transport else .ok ())
        ((11 : ℚ) / 1024) = .error .transport ∧
    round (((11 : ℚ) / 1024) * 256) = 3 ∧ (2 : ℕ) ≠ 3 := by
  refine ⟨?_, ?_, by decide⟩
  · unfold set_absolute_humidity
    rw [if_neg (by norm_num)]
    have he : ((11 : ℚ) / 1024) * 256 = 11 / 4 := by norm_num
    have hv : (int_trunc (((11 : ℚ) / 1024) * 256)).toNat &&& 0xFFFF = 2 := by
      rw [he, int_trunc_eq_floor _ (by norm_num)]
      norm_num
      decide
    simp only [hv]
    rfl
  · norm_num [round_eq]

/-- Claim C6 as amended: the fixed-point value is the truncation
`int(value * 256)` (floor, for the positive inputs that reach the
encoder) masked to 16 bits, with an exact-zero encoding clamped to 1;
non-positive inputs fail with the invalid-argument error for every bus,
before any encoding or bus access. -/
theorem humidity_encoding (g : ℚ) :
    (0 < g → ∀ bus : List ℕ → Except SGPError Unit,
        set_absolute_humidity bus g
          = bus (_write_command_buf _CMD_SET_ABSOLUTE_HUMIDITY
              [if (⌊g * 256⌋).toNat % 65536 = 0 then 1
               else (⌊g * 256⌋).toNat % 65536])) ∧
    (g ≤ 0 → ∀ bus : List ℕ → Except SGPError Unit,
        set_absolute_humidity bus g = .error .invalidArg) := by
  constructor
  · intro hg bus
    unfold set_absolute_humidity
    rw [if_neg (not_le.mpr hg)]
    have h1 : (int_trunc (g * 256)).toNat &&& 0xFFFF
        = (⌊g * 256⌋).toNat % 65536 := by
      rw [int_trunc_eq_floor _ (by nlinarith), and_65535]
    simp only [h1]
    rfl
  · intro hg bus
    unfold set_absolute_humidity
    rw [if_pos hg]

/-- Witness for C6 (amended): 10 g/m³ encodes to 2560, `0.002 = 1/500`
g/m³ clamps to 1, and 0 is rejected before the bus. -/
theorem humidity_encoding_witness :
    set_absolute_humidity okBus 10
        = okBus (_write_command_buf _CMD_SET_ABSOLUTE_HUMIDITY [2560]) ∧
    set_absolute_humidity okBus ((1 : ℚ) / 500)
        = okBus (_write_command_buf _CMD_SET_ABSOLUTE_HUMIDITY [1]) ∧
    set_absolute_humidity okBus 0 = .error .invalidArg := by
  refine ⟨?_, ?_, (humidity_encoding 0).2 le_rfl okBus⟩
  · rw [(humidity_encoding 10).1 (by norm_num) okBus]
    rfl
  · rw [(humidity_encoding ((1 : ℚ) / 500)).1 (by norm_num) okBus]
    rfl

/-- Claim C7: `set_baseline` with both arguments zero fails with the
invalid-argument error for every bus (in particular the bus is never
consulted, so no write occurs); whenever at least one argument is
nonzero the validation passes and the command frame is written. -/
theorem set_baseline_validation :
    (∀ bus : List ℕ → Except SGPError Unit,
        set_baseline bus 0 0 = .error .invalidArg) ∧
    (∀ (bus : List ℕ → Except SGPError Unit) (eCO2 TVOC : ℕ),
        ¬(eCO2 = 0 ∧ TVOC = 0) →
        set_baseline bus eCO2 TVOC
          = bus (_write_command_buf _CMD_SET_IAQ_BASELINE
              [TVOC &&& 0xFFFF, eCO2 &&& 0xFFFF])) := by
  constructor
  · intro bus
    rfl
  · intro bus eCO2 TVOC h
    unfold set_baseline
    rw [if_neg h]
    rfl

/-- Witness for C7: `(1, 0)` passes validation and the frame is written
even to a failing bus, while `(0, 0)` is rejected before the bus. -/
theorem set_baseline_validation_witness :
    set_baseline failBus 0 0 = .error .invalidArg ∧
    set_baseline failBus 1 0
        = failBus (_write_command_buf _CMD_SET_IAQ_BASELINE [0, 1]) :=
  ⟨set_baseline_validation.1 failBus,
   set_baseline_validation.2 failBus 1 0 (by simp)⟩

/-- Claim C8: `measure_test` returns true exactly when the single
response word is 0xD400, and false (not an error) for any other word. -/
theorem measure_test_pass_iff (w : ℕ) (hw : w ≤ 0xFFFF) :
    (measure_test okBus (.ok (encodeWord w)) = .ok true ↔ w = 0xD400) ∧
    (measure_test okBus (.ok (encodeWord w)) = .ok false ↔ w ≠ 0xD400) := by
  rw [measure_test_okBus _ [w] (read_words_encode_single w hw)]
  constructor
  · simp
  · simp

/-- Witness for C8: 0xD400 passes, 0x1234 fails without an error. -/
theorem measure_test_pass_iff_witness :
    measure_test okBus (.ok (encodeWord 0xD400)) = .ok true ∧
    measure_test okBus (.ok (encodeWord 0x1234)) = .ok false :=
  ⟨(measure_test_pass_iff 0xD400 (by decide)).1.mpr rfl,
   (measure_test_pass_iff 0x1234 (by decide)).2.mpr (by decide)⟩

/-- Claim C9: `soft_reset` swallows every outcome of its bus write and
returns normally, while every other operation propagates a transport
failure of the bus (and of the bus read, where one happens) to the
caller. -/
theorem soft_reset_swallows :
    (∀ bus : List ℕ → Except SGPError Unit, soft_reset bus = .ok ()) ∧
    init_air_quality failBus = .error .transport ∧
    (∀ readRes, measure_iaq failBus readRes = .error .transport) ∧
    (∀ readRes, measure_raw failBus readRes = .error .transport) ∧
    (∀ readRes, measure_test failBus readRes = .error .transport) ∧
    (∀ readRes, get_baseline failBus readRes = .error .transport) ∧
    (∀ readRes, get_serial_id failBus readRes = .error .transport) ∧
    (∀ eCO2 TVOC : ℕ, ¬(eCO2 = 0 ∧ TVOC = 0) →
        set_baseline failBus eCO2 TVOC = .error .transport) ∧
    (∀ g : ℚ, 0 < g → set_absolute_humidity failBus g = .error .transport) ∧
    (∀ n, _read_words_with_crc (.error .transport) n = .error .transport) := by
  refine ⟨fun bus => ?_, rfl, fun _ => rfl, fun _ => rfl, fun _ => rfl,
    fun _ => rfl, fun _ => rfl, fun eCO2 TVOC h => ?_, fun g hg => ?_,
    fun n => rfl⟩
  · unfold soft_reset
    split <;> rfl
  · unfold set_baseline
    rw [if_neg h]
    rfl
  · unfold set_absolute_humidity
    rw [if_neg (not_le.mpr hg)]
    rfl

/-- Witness for C9: the reset attempt on a failing bus still reports
success, while `set_baseline` and `set_absolute_humidity` on the same
bus surface the transport failure. -/
theorem soft_reset_swallows_witness :
    soft_reset failBus = .ok () ∧
    set_baseline failBus 1 0 = .error .transport ∧
    set_absolute_humidity failBus 10 = .error .transport := by
  obtain ⟨h1, _, _, _, _, _, _, h8, h9, _⟩ := soft_reset_swallows
  exact ⟨h1 failBus, h8 1 0 (by simp), h9 10 (by norm_num)⟩

/-- Claim C10 (implicit): `set_baseline` masks with `&&& 0xFFFF` only
after the both-zero validation, so `(eCO2, TVOC) = (0x10000, 0)` passes
validation yet the written frame carries the all-zero word pair — the
very payload the precondition rejects when given directly. -/
theorem set_baseline_mask_after_validation
    (bus : List ℕ → Except SGPError Unit) :
    set_baseline bus 0x10000 0
        = bus ([0x20, 0x1E] ++ encodeWord 0 ++ encodeWord 0) ∧
    set_baseline bus 0 0 = .error .invalidArg := by
  constructor
  · unfold set_baseline
    rw [if_neg (by simp)]
    rfl
  · rfl

end SGP30

